import Mathlib

/-!
Verification development for the Jarvis voice-assistant proxy.

This file gives a shallow embedding of the routing-relevant parts of
`smart_router.py` (the `SmartRouter` classifier) and `personaplex_proxy.py`
(the moshi→app forwarding loop, the Ollama query handler, and the
voice-activity tracker), and proves the specification claims about them.

Text is modelled as `List Nat` of Unicode code points (the repository's
inputs are ASCII; `lower`/`upper`/`strip` are modelled on the ASCII range,
matching CPython's behaviour there).  Python floats are modelled as exact
rationals: every constant in the source is a short decimal, and all sums
and comparisons performed by the code stay exact at these values.
-/

namespace Jarvis

/-- Code points of a string literal (helper for concrete inputs). -/
def lc (s : String) : List Nat := s.data.map Char.toNat

/-- ASCII lower-casing of one code point, as `str.lower` acts on ASCII. -/
def lowerN (n : Nat) : Nat := if 65 ≤ n ∧ n ≤ 90 then n + 32 else n

/-- ASCII upper-casing of one code point, as `str.upper` acts on ASCII. -/
def upperN (n : Nat) : Nat := if 97 ≤ n ∧ n ≤ 122 then n - 32 else n

/-- `str.lower` on a text. -/
def pyLower (l : List Nat) : List Nat := l.map lowerN

/-- `str.upper` on a text. -/
def pyUpper (l : List Nat) : List Nat := l.map upperN

/-- The whitespace code points stripped by `str.strip`/`str.split`:
space, tab, newline, carriage return, vertical tab, form feed. -/
def isSpaceNat (n : Nat) : Bool :=
  decide (n = 32 ∨ n = 9 ∨ n = 10 ∨ n = 13 ∨ n = 11 ∨ n = 12)

/-- `str.lstrip()`. -/
def pylstrip (l : List Nat) : List Nat := l.dropWhile isSpaceNat

/-- `str.rstrip()`. -/
def pyrstrip (l : List Nat) : List Nat := (l.reverse.dropWhile isSpaceNat).reverse

/-- `str.strip()`. -/
def pystrip (l : List Nat) : List Nat := pyrstrip (pylstrip l)

/-- Whether the last code point of `l` belongs to `cs` (`str.endswith` on a
tuple of single characters). -/
def lastIs (l : List Nat) (cs : List Nat) : Bool :=
  match l.getLast? with
  | some c => cs.contains c
  | none => false

/-- `query.strip().endswith("?")` (63 is the question mark). -/
def endsWithQmark (l : List Nat) : Bool := decide (l.getLast? = some 63)

/-- Counts the maximal whitespace-separated runs, `len(s.split())`. -/
def wordCountAux : List Nat → Bool → Nat
  | [], _ => 0
  | c :: cs, inWord =>
    if isSpaceNat c then wordCountAux cs false
    else (if inWord then 0 else 1) + wordCountAux cs true

/-- `len(s.split())`: number of whitespace-separated words. -/
def wordCount (l : List Nat) : Nat := wordCountAux l false

/-- Whether `kw` is a prefix of `l` (code-point equality). -/
def hasPrefixN : List Nat → List Nat → Bool
  | [], _ => true
  | _ :: _, [] => false
  | k :: ks, c :: cs => k == c && hasPrefixN ks cs

/-- Python's `kw in l`: `kw` occurs as a contiguous substring of `l`. -/
def containsSub (kw : List Nat) : List Nat → Bool
  | [] => hasPrefixN kw []
  | c :: cs => hasPrefixN kw (c :: cs) || containsSub kw cs

/-! ### A small regular-expression engine

The classifier's `SIMPLE_PATTERNS` / `COMPLEX_PATTERNS` use literals,
alternation, `?` on single characters, the classes `.`, `\d`, `\s`,
`[\+\-\*\/\^]`, counted/unbounded repetition of single-character classes,
the word boundary `\b` and the anchor `^`.  The engine below returns every
way a pattern can match at a position, so matching is exactly the regex
language semantics (Python's backtracking order is irrelevant for the
Boolean outcome of `re.search`). -/

/-- Regular expressions over code points.  `starCls p` is `p*` for a
single-character class `p` (the only starred subterms in the source). -/
inductive Re where
  | fail
  | eps
  | ch (n : Nat)
  | cls (p : Nat → Bool)
  | seq (a b : Re)
  | alt (a b : Re)
  | starCls (p : Nat → Bool)
  | wordB

/-- Regex `\w`: ASCII letters, digits, underscore. -/
def isWordNat (n : Nat) : Bool :=
  (48 ≤ n && n ≤ 57) || (65 ≤ n && n ≤ 90) || (97 ≤ n && n ≤ 122) || n == 95

/-- Regex `.`: anything except newline. -/
def isDotNat (n : Nat) : Bool := n != 10

/-- Regex `\d`. -/
def isDigitNat (n : Nat) : Bool := 48 ≤ n && n ≤ 57

/-- Regex `\s` (ASCII). -/
def isWsNat (n : Nat) : Bool := isSpaceNat n

/-- The class `[\+\-\*\/\^]` of the arithmetic-expression pattern. -/
def isMathOpNat (n : Nat) : Bool :=
  n == 43 || n == 45 || n == 42 || n == 47 || n == 94

/-- Whether an optional preceding code point is a word character. -/
def isWordOpt : Option Nat → Bool
  | none => false
  | some c => isWordNat c

/-- Whether the first code point of the remaining text is a word character. -/
def isWordHead : List Nat → Bool
  | [] => false
  | c :: _ => isWordNat c

/-- `\b` holds between `prev` and `s` iff exactly one side is a word char. -/
def atBoundary (prev : Option Nat) (s : List Nat) : Bool :=
  isWordOpt prev != isWordHead s

/-- All ways `p*` can consume a prefix of `s`; each result is the character
preceding the remainder together with the remainder. -/
def starSplits (p : Nat → Bool) : Option Nat → List Nat → List (Option Nat × List Nat)
  | prev, [] => [(prev, [])]
  | prev, c :: cs =>
    (prev, c :: cs) :: (if p c then starSplits p (some c) cs else [])

/-- All ways `r` can match a prefix of `s` when the character before `s` is
`prev`; each result is the character before the remainder and the remainder. -/
def reMatch : Re → Option Nat → List Nat → List (Option Nat × List Nat)
  | .fail, _, _ => []
  | .eps, prev, s => [(prev, s)]
  | .ch n, _, s =>
    match s with
    | [] => []
    | c :: cs => if c == n then [(some c, cs)] else []
  | .cls p, _, s =>
    match s with
    | [] => []
    | c :: cs => if p c then [(some c, cs)] else []
  | .seq a b, prev, s => (reMatch a prev s).flatMap (fun pr => reMatch b pr.1 pr.2)
  | .alt a b, prev, s => reMatch a prev s ++ reMatch b prev s
  | .starCls p, prev, s => starSplits p prev s
  | .wordB, prev, s => if atBoundary prev s then [(prev, s)] else []

/-- Whether `r` matches starting at the very beginning of `s` (for the
`^`-anchored simple patterns; without `re.MULTILINE`, `^` only matches
at position 0). -/
def matchAtStart (r : Re) (s : List Nat) : Bool := !(reMatch r none s).isEmpty

/-- `re.search`: try the pattern at every position of `s`. -/
def searchAux (r : Re) : Option Nat → List Nat → Bool
  | prev, [] => !(reMatch r prev []).isEmpty
  | prev, c :: cs => !(reMatch r prev (c :: cs)).isEmpty || searchAux r (some c) cs

/-- `re.search(r, s)` as a Boolean. -/
def searchRe (r : Re) (s : List Nat) : Bool := searchAux r none s

/-- A literal sequence of code points. -/
def litL : List Nat → Re
  | [] => .eps
  | c :: cs => .seq (.ch c) (litL cs)

/-- A literal from a string. -/
def lit (s : String) : Re := litL (lc s)

/-- Alternation of a list of expressions. -/
def oneOf (rs : List Re) : Re := rs.foldr .alt .fail

/-- Alternation of literal phrases. -/
def litAlt (ss : List String) : Re := oneOf (ss.map lit)

/-- `r?`. -/
def opt (r : Re) : Re := .alt r .eps

/-- `r` repeated exactly `n` times. -/
def reps : Nat → Re → Re
  | 0, _ => .eps
  | n + 1, r => .seq r (reps n r)

/-- `.{n,}`: at least `n` further characters (regex dot). -/
def atLeastDots (n : Nat) : Re := .seq (reps n (.cls isDotNat)) (.starCls isDotNat)

/-- `\d+`-style: one or more characters of a class. -/
def plusCls (p : Nat → Bool) : Re := .seq (.cls p) (.starCls p)

/-- `\b(w1|w2|…)\b`. -/
def bAlt (ss : List String) : Re := .seq .wordB (.seq (litAlt ss) .wordB)

/-- `SmartRouter.SIMPLE_PATTERNS`, in source order, each stripped of its
leading `^` (they are matched at position 0 by `matchAtStart`). -/
def SIMPLE_PATTERNS : List Re :=
  [ .seq (oneOf [lit "hi", lit "hello", lit "hey",
      .seq (lit "good ") (litAlt ["morning", "afternoon", "evening"]),
      lit "howdy"]) .wordB,
    lit "how are you",
    .seq (lit "what") (.seq (opt (.ch 39)) (lit "s up")),
    .seq (litAlt ["thanks", "thank you", "bye", "goodbye", "see you", "later"]) .wordB,
    lit "what time is it",
    .seq (lit "what") (.seq (opt (.ch 39)) (.seq (lit "s the ")
      (litAlt ["time", "date", "weather"]))),
    .seq (litAlt ["yes", "no", "yeah", "nope", "okay", "ok", "sure", "alright"]) .wordB,
    .seq (oneOf [.seq (lit "uh") (.seq (opt (.ch 45)) (lit "huh")),
      lit "hmm", lit "i see", lit "got it", lit "makes sense",
      lit "right", lit "exactly"]) .wordB,
    .seq (litAlt ["stop", "pause", "cancel", "nevermind", "never mind"]) .wordB,
    .seq (litAlt ["repeat that", "say that again", "what did you say"]) .wordB ]

/-- `SmartRouter.COMPLEX_PATTERNS`, in source order. -/
def COMPLEX_PATTERNS : List Re :=
  [ .seq .wordB (.seq (litAlt ["explain", "why", "how does", "what causes",
      "analyze", "compare"]) (.seq .wordB (.seq (.starCls isDotNat) (.ch 63)))),
    bAlt ["difference between", "pros and cons", "advantages", "disadvantages"],
    bAlt ["code", "program", "function", "class", "bug", "error", "debug", "fix"],
    bAlt ["python", "javascript", "swift", "rust", "java", "sql", "api"],
    bAlt ["algorithm", "data structure", "complexity", "optimize"],
    bAlt ["calculate", "compute", "solve", "equation", "formula", "math"],
    .seq .wordB (.seq (plusCls isDigitNat) (.seq (.starCls isWsNat)
      (.seq (.cls isMathOpNat) (.seq (.starCls isWsNat) (plusCls isDigitNat))))),
    bAlt ["research", "study", "paper", "article", "source", "reference"],
    bAlt ["history of", "origin of", "when was", "who invented"],
    .seq .wordB (.seq (litAlt ["definition", "meaning of", "what is a"])
      (.seq .wordB (atLeastDots 10))),
    bAlt ["step by step", "walk me through", "guide", "tutorial"],
    .seq .wordB (.seq (litAlt ["first", "then", "after that", "finally"])
      (.seq .wordB (.seq (.starCls isDotNat)
        (.seq .wordB (.seq (litAlt ["and", "then"]) .wordB))))),
    .seq .wordB (.seq (litAlt ["write", "create", "generate", "compose", "draft"])
      (.seq .wordB (atLeastDots 15))),
    bAlt ["story", "poem", "essay", "email", "letter", "report"],
    bAlt ["summarize", "summary", "key points", "main ideas"],
    bAlt ["review", "critique", "evaluate", "assess"] ]

/-- Whether any simple pattern matches (all are `^`-anchored). -/
def simpleMatch (ql : List Nat) : Bool :=
  SIMPLE_PATTERNS.any (fun r => matchAtStart r ql)

/-- Whether any complex pattern matches anywhere (`re.search`). -/
def complexMatch (ql : List Nat) : Bool :=
  COMPLEX_PATTERNS.any (fun r => searchRe r ql)

/-! ### The classifier (`SmartRouter.classify_fast` / `classify_with_llm`) -/

/-- `QueryComplexity`. -/
inductive QueryComplexity where
  | SIMPLE
  | COMPLEX
  | UNCERTAIN
deriving DecidableEq, Repr

/-- The `reason` string of a `RouterDecision`, kept structured: every
formatted source string is a function of the data carried here. -/
inductive Reason where
  | veryShort
  | matchedSimple
  | matchedComplex
  | highScore (score : ℚ) (keywords : List (List Nat))
  | mediumScore (score : ℚ)
  | lowScore (score : ℚ)
  | llmComplex
  | llmSimple
deriving DecidableEq, Repr

/-- `RouterDecision`. -/
structure RouterDecision where
  complexity : QueryComplexity
  confidence : ℚ
  reason : Reason
  suggested_model : String
deriving DecidableEq, Repr

/-- `SmartRouter.COMPLEXITY_KEYWORDS`: keyword → weight, in source order
(Python dicts preserve insertion order). -/
def COMPLEXITY_KEYWORDS : List (List Nat × ℚ) :=
  [ (lc "explain", 0.3), (lc "why", 0.2), (lc "how", 0.15), (lc "analyze", 0.4),
    (lc "compare", 0.3), (lc "code", 0.5), (lc "program", 0.4),
    (lc "calculate", 0.3), (lc "write", 0.25), (lc "create", 0.2),
    (lc "research", 0.3), (lc "summarize", 0.35), (lc "step by step", 0.4),
    (lc "in detail", 0.3), (lc "thoroughly", 0.3) ]

/-- The keyword loop of `classify_fast`: accumulates the score and the
matched-keyword list over the table, in table order. -/
def scoreKeywords (ql : List Nat) : ℚ × List (List Nat) :=
  COMPLEXITY_KEYWORDS.foldl
    (fun acc kv => if containsSub kv.1 ql then (acc.1 + kv.2, acc.2 ++ [kv.1]) else acc)
    (0, [])

/-- The length adjustment: `+0.2` for more than 20 words, else `+0.1` for
more than 10. -/
def lenBonus (ql : List Nat) : ℚ :=
  if 20 < wordCount ql then 0.2 else if 10 < wordCount ql then 0.1 else 0

/-- The question-mark adjustment, computed on the *original* query
(`query.strip().endswith("?")`). -/
def qBonus (q : List Nat) : ℚ :=
  if endsWithQmark (pystrip q) then 0.1 else 0

/-- `SmartRouter.classify_fast`. -/
def classify_fast (q : List Nat) : RouterDecision :=
  let ql := pystrip (pyLower q)
  if ql.length < 3 then
    ⟨.SIMPLE, 0.9, .veryShort, "moshi"⟩
  else if simpleMatch ql then
    ⟨.SIMPLE, 0.85, .matchedSimple, "moshi"⟩
  else if complexMatch ql then
    ⟨.COMPLEX, 0.8, .matchedComplex, "ollama"⟩
  else
    let score := (scoreKeywords ql).1 + lenBonus ql + qBonus q
    if 0.5 ≤ score then
      ⟨.COMPLEX, min 0.9 (0.5 + score), .highScore score (scoreKeywords ql).2, "ollama"⟩
    else if 0.25 ≤ score then
      ⟨.UNCERTAIN, 0.5, .mediumScore score, "moshi"⟩
    else
      ⟨.SIMPLE, 0.7, .lowScore score, "moshi"⟩

/-- `SmartRouter.classify_with_llm`.  The network is abstracted by `resp`:
`none` for any failure path (Ollama unavailable at the check, non-200
status, timeout, exception), `some r` for a 200 reply whose `response`
field is `r`.  When Ollama is unavailable or the fast decision is not
`UNCERTAIN`, the fast decision is returned unchanged. -/
def classify_with_llm (ollamaAvailable : Bool) (fast : RouterDecision)
    (resp : Option (List Nat)) : RouterDecision :=
  if !ollamaAvailable then fast
  else if fast.complexity ≠ .UNCERTAIN then fast
  else
    match resp with
    | none => fast
    | some r =>
      if containsSub (lc "COMPLEX") (pyUpper (pystrip r)) then
        ⟨.COMPLEX, 0.75, .llmComplex, "ollama"⟩
      else
        ⟨.SIMPLE, 0.75, .llmSimple, "moshi"⟩

/-! ### The proxy's moshi→app forwarding loop (`_forward_moshi_to_app`)

The loop's text branch (`kind == 2`) is modelled as a step function over the
loop's local state, consuming one decoded text payload per step and emitting
the JSON events sent to the app.  The audio branch (`kind == 1`) and the
handshake branch touch none of `text_buffer`, `sentence_buffer`,
`routing_pending` and emit no `response`/`thinking`/`error` events, so runs
over text payloads capture every claim about routing and text events.
`Event.classifyCall` records an invocation of `classify_fast` (line 285,
inside the availability gate) and `Event.dispatch` records
`asyncio.create_task(self._handle_ollama_query(...))` (line 290). -/

/-- Which backend a `response` event is tagged with (its `source` field). -/
inductive Source where
  | moshi
  | ollama
deriving DecidableEq, Repr

/-- The events the proxy sends to the app (plus the two bookkeeping marks
`dispatch` and `classifyCall` for task creation and classifier calls). -/
inductive Event where
  | response (text : List Nat) (isPartial : Bool) (src : Source)
  | thinking
  | errorEv
  | dispatch (query : List Nat)
  | classifyCall (query : List Nat)
deriving DecidableEq, Repr

/-- The local state of `_forward_moshi_to_app` relevant to text routing. -/
structure FwdState where
  textBuffer : List Nat
  sentenceBuffer : List Nat
  routingPending : Bool
deriving DecidableEq, Repr

/-- The loop's initial state (`text_buffer = ""`, `sentence_buffer = ""`,
`routing_pending = False`). -/
def initFwd : FwdState := ⟨[], [], false⟩

/-- `text.rstrip().endswith(('.', '?', '!', '\n'))`: sentence completion. -/
def sentenceEnd (t : List Nat) : Bool := lastIs (pyrstrip t) [46, 63, 33, 10]

/-- Lines 284–292: if Ollama is available and no routing is pending, run the
classifier on the completed sentence and, when it says `COMPLEX`, set
`routing_pending` and start the background Ollama task.  Returns the new
`routing_pending` and the bookkeeping events. -/
def routeCheck (avail pending : Bool) (sentence : List Nat) : Bool × List Event :=
  if avail && !pending then
    if (classify_fast sentence).complexity = .COMPLEX then
      (true, [.classifyCall sentence, .dispatch sentence])
    else
      (pending, [.classifyCall sentence])
  else
    (pending, [])

/-- One iteration of the text branch (lines 259–302) on payload `t`:
skip empty and NUL payloads; otherwise extend both buffers, emit the
partial response, and on sentence completion run the routing check, emit
the completion response, and clear both buffers. -/
def textStep (avail : Bool) (st : FwdState) (t : List Nat) : FwdState × List Event :=
  if t = [] ∨ t = [0] then
    (st, [])
  else
    let tb := st.textBuffer ++ t
    let sb := st.sentenceBuffer ++ t
    if sentenceEnd t then
      let sentence := pystrip sb
      let rc := routeCheck avail st.routingPending sentence
      (⟨[], [], rc.1⟩,
       Event.response t true .moshi :: rc.2 ++ [Event.response (pystrip tb) false .moshi])
    else
      (⟨tb, sb, st.routingPending⟩, [Event.response t true .moshi])

/-- Run of the forwarding loop over a list of text payloads. -/
def runFrom (avail : Bool) (st : FwdState) : List (List Nat) → FwdState × List Event
  | [] => (st, [])
  | t :: ts =>
    let step := textStep avail st t
    let rest := runFrom avail step.1 ts
    (rest.1, step.2 ++ rest.2)

/-- Events of a session's forwarding loop, from the initial state. -/
def runEvents (avail : Bool) (ts : List (List Nat)) : List Event :=
  (runFrom avail initFwd ts).2

/-- The dispatched queries among a list of events. -/
def dispatches (evs : List Event) : List (List Nat) :=
  evs.filterMap (fun e => match e with | .dispatch q => some q | _ => none)

/-- The classifier invocations among a list of events. -/
def classifyCalls (evs : List Event) : List (List Nat) :=
  evs.filterMap (fun e => match e with | .classifyCall q => some q | _ => none)

/-- The texts of the `partial=true` moshi responses, in delivery order. -/
def partialTexts (evs : List Event) : List (List Nat) :=
  evs.filterMap (fun e => match e with
    | .response t true .moshi => some t
    | _ => none)

/-! ### The Ollama query handler (`_handle_ollama_query`) -/

/-- One line of the streamed Ollama reply: `invalid` for a line that fails
JSON decoding (skipped by `continue`), `line tok dn` for a decoded object
whose `response` field is `tok` (possibly empty) and `done` flag is `dn`. -/
inductive OLine where
  | invalid
  | line (token : List Nat) (done : Bool)
deriving DecidableEq, Repr

/-- The streaming loop (lines 341–358): accumulate `full_response`, emit a
partial ollama response per non-empty token, stop at the first `done`. -/
def processLines : List OLine → List Nat × List Event
  | [] => ([], [])
  | .invalid :: rest => processLines rest
  | .line tok dn :: rest =>
    let evs := if tok ≠ [] then [Event.response tok true .ollama] else []
    if dn then (tok, evs)
    else
      let r := processLines rest
      (tok ++ r.1, evs ++ r.2)

/-- Behaviour of the secondary backend for one query: either the stream
ends normally after the given lines, or a connection/protocol exception
interrupts it after the given lines were processed. -/
inductive OllamaOutcome where
  | ok (lines : List OLine)
  | exn (lines : List OLine)
deriving DecidableEq, Repr

/-- `_handle_ollama_query` (lines 317–379): the `thinking` state event is
sent before the `try` block; on normal completion the full response is sent
iff it is non-empty; on an exception an error event is sent. -/
def ollamaHandler (oc : OllamaOutcome) : List Event :=
  Event.thinking ::
    (match oc with
     | .ok lines =>
       let pr := processLines lines
       pr.2 ++ (if pr.1 ≠ [] then [Event.response pr.1 false .ollama] else [])
     | .exn lines => (processLines lines).2 ++ [Event.errorEv])

/-- `ConversationState` (the proxy's per-connection dataclass). -/
structure ConversationState where
  userSpeaking : Bool
  assistantSpeaking : Bool
  lastUserAudioTime : ℚ
  lastAssistantAudioTime : ℚ
  currentQueryRouted : Bool
deriving DecidableEq, Repr

/-- The handler's final statement (line 379): it resets
`state.current_query_routed` — and nothing else; in particular the loop's
local `routing_pending` is not (and cannot be) touched from here. -/
def ollamaFinalize (cs : ConversationState) : ConversationState :=
  { cs with currentQueryRouted := false }

/-- The whole session's event stream in the interleaving where each
background Ollama task's events follow its dispatch mark; `oc` gives the
backend's behaviour for each dispatched query. -/
def sessionEvents (avail : Bool) (ts : List (List Nat))
    (oc : List Nat → OllamaOutcome) : List Event :=
  (runEvents avail ts).flatMap (fun e =>
    match e with
    | .dispatch q => Event.dispatch q :: ollamaHandler (oc q)
    | e => [e])

/-! ### Voice-activity tracking (`_forward_app_to_moshi`, lines 156–165) -/

/-- `VAD_THRESHOLD`. -/
def VAD_THRESHOLD : ℚ := 0.02

/-- `VAD_SILENCE_DURATION`. -/
def VAD_SILENCE_DURATION : ℚ := 0.8

/-- The voice-activity fields of `ConversationState`, tracked per frame. -/
structure VadState where
  userSpeaking : Bool
  lastUserAudioAt : ℚ
deriving DecidableEq, Repr

/-- The per-frame VAD transition: a frame is summarised by its RMS and the
current time.  Above the threshold, mark speaking and stamp the time;
otherwise, if speaking and the silence has exceeded the hysteresis
duration, stop speaking; otherwise leave the state unchanged. -/
def vadStep (st : VadState) (rms now : ℚ) : VadState :=
  if VAD_THRESHOLD < rms then
    ⟨true, now⟩
  else if st.userSpeaking && decide (VAD_SILENCE_DURATION < now - st.lastUserAudioAt) then
    ⟨false, st.lastUserAudioAt⟩
  else
    st

/-! ## Helper lemmas -/

/-- Minimum number of characters any match of `r` must consume (`fail`
never matches, so any bound is sound for it; a large one keeps `alt`
folds over `fail` informative). -/
def minLen : Re → Nat
  | .fail => 1000000
  | .eps => 0
  | .ch _ => 1
  | .cls _ => 1
  | .seq a b => minLen a + minLen b
  | .alt a b => min (minLen a) (minLen b)
  | .starCls _ => 0
  | .wordB => 0

theorem starSplits_length (p : Nat → Bool) (prev : Option Nat) (s : List Nat)
    (pr : Option Nat × List Nat) (h : pr ∈ starSplits p prev s) :
    pr.2.length ≤ s.length := by
  induction s generalizing prev with
  | nil =>
    simp only [starSplits, List.mem_singleton] at h
    simp [h]
  | cons c cs ih =>
    simp only [starSplits] at h
    rcases List.mem_cons.mp h with h | h
    · simp [h]
    · split at h
      · exact Nat.le_succ_of_le (ih (some c) h)
      · simp at h

theorem reMatch_minLen (r : Re) (prev : Option Nat) (s : List Nat)
    (pr : Option Nat × List Nat) (h : pr ∈ reMatch r prev s) :
    minLen r + pr.2.length ≤ s.length := by
  induction r generalizing prev s pr with
  | fail => simp [reMatch] at h
  | eps =>
    simp only [reMatch, List.mem_singleton] at h
    simp [h, minLen]
  | ch n =>
    cases s with
    | nil => simp [reMatch] at h
    | cons c cs =>
      simp only [reMatch] at h
      split at h
      · simp only [List.mem_singleton] at h
        simp only [h, minLen, List.length_cons]
        omega
      · simp at h
  | cls p =>
    cases s with
    | nil => simp [reMatch] at h
    | cons c cs =>
      simp only [reMatch] at h
      split at h
      · simp only [List.mem_singleton] at h
        simp only [h, minLen, List.length_cons]
        omega
      · simp at h
  | seq a b iha ihb =>
    simp only [reMatch, List.mem_flatMap] at h
    obtain ⟨q, hq, hpr⟩ := h
    have h1 := iha prev s q hq
    have h2 := ihb q.1 q.2 pr hpr
    simp only [minLen]
    omega
  | alt a b iha ihb =>
    simp only [reMatch, List.mem_append] at h
    rcases h with h | h
    · have := iha prev s pr h
      simp only [minLen]
      omega
    · have := ihb prev s pr h
      simp only [minLen]
      omega
  | starCls p =>
    have := starSplits_length p prev s pr h
    simp only [minLen]
    omega
  | wordB =>
    simp only [reMatch] at h
    split at h
    · simp only [List.mem_singleton] at h
      simp [h, minLen]
    · simp at h

theorem searchAux_minLen (r : Re) (s : List Nat) (prev : Option Nat)
    (h : searchAux r prev s = true) : minLen r ≤ s.length := by
  induction s generalizing prev with
  | nil =>
    simp only [searchAux] at h
    cases hm : reMatch r prev [] with
    | nil => rw [hm] at h; simp at h
    | cons x xs =>
      have := reMatch_minLen r prev [] x (by rw [hm]; exact List.mem_cons_self x xs)
      simp at this
      omega
  | cons c cs ih =>
    simp only [searchAux, Bool.or_eq_true] at h
    rcases h with h | h
    · cases hm : reMatch r prev (c :: cs) with
      | nil => rw [hm] at h; simp at h
      | cons x xs =>
        have := reMatch_minLen r prev (c :: cs) x (by rw [hm]; exact List.mem_cons_self x xs)
        simp only [List.length_cons] at this ⊢
        omega
    · have := ih (some c) h
      simp only [List.length_cons]
      omega

/-- Every complex pattern needs at least three characters to match, so a
complex-matching unit is never caught by the trivial-length guard. -/
theorem complexMatch_length (s : List Nat) (h : complexMatch s = true) :
    3 ≤ s.length := by
  unfold complexMatch at h
  rw [List.any_eq_true] at h
  obtain ⟨r, hr, hs⟩ := h
  have hall : ∀ r ∈ COMPLEX_PATTERNS, 3 ≤ minLen r := by decide
  have hmin := hall r hr
  have := searchAux_minLen r s none hs
  omega

/-! ## Claims -/

/-- C9: the voice-activity tracker: an above-threshold frame sets
`userSpeaking` and stamps `lastUserAudioAt` with the current time;
`userSpeaking` can flip to `false` only from `true`, on a below-threshold
frame whose elapsed silence exceeds the hysteresis duration; and once
`userSpeaking` is `false`, further below-threshold frames leave the state
unchanged (idempotence under repeated silent frames). -/
theorem claim_C9_vad (st : VadState) (rms now : ℚ) :
    (VAD_THRESHOLD < rms → vadStep st rms now = ⟨true, now⟩) ∧
    ((vadStep st rms now).userSpeaking = false →
      st.userSpeaking = false ∨
        (rms ≤ VAD_THRESHOLD ∧ VAD_SILENCE_DURATION < now - st.lastUserAudioAt)) ∧
    (st.userSpeaking = false → rms ≤ VAD_THRESHOLD → vadStep st rms now = st) := by
  refine ⟨?_, ?_, ?_⟩
  · intro h
    simp [vadStep, h]
  · intro h
    unfold vadStep at h
    split at h
    · simp at h
    · rename_i hrms
      split at h
      · rename_i hcond
        rw [Bool.and_eq_true, decide_eq_true_eq] at hcond
        exact Or.inr ⟨le_of_not_lt hrms, hcond.2⟩
      · exact Or.inl h
  · intro h1 h2
    unfold vadStep
    rw [if_neg (not_lt.mpr h2), h1]
    simp

/-- C9 witness: a loud frame starts speech at the current time; a silent
frame in the non-speaking state is a no-op. -/
theorem claim_C9_vad_witness :
    vadStep ⟨false, 0⟩ (3 / 100) 5 = ⟨true, 5⟩ ∧
    vadStep ⟨false, 0⟩ 0 5 = ⟨false, 0⟩ :=
  ⟨(claim_C9_vad ⟨false, 0⟩ (3 / 100) 5).1 (by norm_num [VAD_THRESHOLD]),
   (claim_C9_vad ⟨false, 0⟩ 0 5).2.2 rfl (by norm_num [VAD_THRESHOLD])⟩

/-- C4: `classify_fast` evaluates its stages in a fixed order with the
first match winning: under 3 characters (after lower-casing and stripping)
it answers `SIMPLE` at confidence 0.9 unconditionally; otherwise a simple-
pattern match answers `SIMPLE` at 0.85; otherwise a complex-pattern match
answers `COMPLEX` at 0.8; and a unit matching both kinds of pattern is
decided `SIMPLE` at 0.85 (a complex match forces length ≥ 3, so the
length guard cannot intervene). -/
theorem claim_C4_stage_order :
    (∀ q : List Nat, (pystrip (pyLower q)).length < 3 →
      classify_fast q = ⟨.SIMPLE, 0.9, .veryShort, "moshi"⟩) ∧
    (∀ q : List Nat, 3 ≤ (pystrip (pyLower q)).length →
      simpleMatch (pystrip (pyLower q)) = true →
      classify_fast q = ⟨.SIMPLE, 0.85, .matchedSimple, "moshi"⟩) ∧
    (∀ q : List Nat, 3 ≤ (pystrip (pyLower q)).length →
      simpleMatch (pystrip (pyLower q)) = false →
      complexMatch (pystrip (pyLower q)) = true →
      classify_fast q = ⟨.COMPLEX, 0.8, .matchedComplex, "ollama"⟩) ∧
    (∀ q : List Nat, simpleMatch (pystrip (pyLower q)) = true →
      complexMatch (pystrip (pyLower q)) = true →
      classify_fast q = ⟨.SIMPLE, 0.85, .matchedSimple, "moshi"⟩) := by
  have hshort : ∀ q : List Nat, (pystrip (pyLower q)).length < 3 →
      classify_fast q = ⟨.SIMPLE, 0.9, .veryShort, "moshi"⟩ := by
    intro q h
    simp [classify_fast, h]
  have hsimple : ∀ q : List Nat, 3 ≤ (pystrip (pyLower q)).length →
      simpleMatch (pystrip (pyLower q)) = true →
      classify_fast q = ⟨.SIMPLE, 0.85, .matchedSimple, "moshi"⟩ := by
    intro q h3 hs
    have h3' : ¬ (pystrip (pyLower q)).length < 3 := by omega
    simp [classify_fast, h3', hs]
  refine ⟨hshort, hsimple, ?_, ?_⟩
  · intro q h3 hs hc
    have h3' : ¬ (pystrip (pyLower q)).length < 3 := by omega
    simp [classify_fast, h3', hs, hc]
  · intro q hs hc
    exact hsimple q (complexMatch_length _ hc) hs

/-- C4 witness: "hi" is caught by the length guard; "yes, fix the bug"
matches a simple pattern and a complex pattern and is decided `SIMPLE`
at 0.85. -/
theorem claim_C4_stage_order_witness :
    classify_fast (lc "hi") = ⟨.SIMPLE, 0.9, .veryShort, "moshi"⟩ ∧
    classify_fast (lc "yes, fix the bug") = ⟨.SIMPLE, 0.85, .matchedSimple, "moshi"⟩ :=
  ⟨claim_C4_stage_order.1 (lc "hi") (by decide),
   claim_C4_stage_order.2.2.2 (lc "yes, fix the bug") (by decide) (by decide)⟩

theorem isSpaceNat_lowerN (n : Nat) : isSpaceNat (lowerN n) = isSpaceNat n := by
  unfold lowerN
  split
  · rename_i h
    unfold isSpaceNat
    rw [decide_eq_decide]
    omega
  · rfl

theorem lowerN_eq_qmark (n : Nat) : lowerN n = 63 ↔ n = 63 := by
  unfold lowerN
  split <;> omega

theorem dropWhile_space_pyLower (l : List Nat) :
    (pyLower l).dropWhile isSpaceNat = pyLower (l.dropWhile isSpaceNat) := by
  unfold pyLower
  rw [List.dropWhile_map]
  have hp : isSpaceNat ∘ lowerN = isSpaceNat := by
    funext n
    simp [Function.comp, isSpaceNat_lowerN]
  rw [hp]

theorem pyLower_reverse (l : List Nat) : (pyLower l).reverse = pyLower l.reverse := by
  unfold pyLower
  exact (List.map_reverse lowerN l).symm

/-- Stripping commutes with lower-casing: lower-casing never changes
whether a character is whitespace. -/
theorem pystrip_pyLower (l : List Nat) : pystrip (pyLower l) = pyLower (pystrip l) := by
  unfold pystrip pylstrip pyrstrip
  rw [dropWhile_space_pyLower, pyLower_reverse, dropWhile_space_pyLower, pyLower_reverse]

/-- C7: `classify_fast` is a pure function of the unit text and is
case-insensitive: inputs equal after lower-casing get the very same
decision (complexity, confidence, structured reason, suggested backend).
Determinism over repeated calls is immediate from purity (`classify_fast`
is a function). -/
theorem claim_C7_case_insensitive_determinism (s t : List Nat)
    (h : pyLower s = pyLower t) : classify_fast s = classify_fast t := by
  have hql : pystrip (pyLower s) = pystrip (pyLower t) := by rw [h]
  have hlast : ((pystrip s).getLast?).map lowerN = ((pystrip t).getLast?).map lowerN := by
    calc ((pystrip s).getLast?).map lowerN
        = (pyLower (pystrip s)).getLast? := (List.getLast?_map lowerN (pystrip s)).symm
      _ = (pystrip (pyLower s)).getLast? := by rw [pystrip_pyLower]
      _ = (pystrip (pyLower t)).getLast? := by rw [h]
      _ = (pyLower (pystrip t)).getLast? := by rw [pystrip_pyLower]
      _ = ((pystrip t).getLast?).map lowerN := List.getLast?_map lowerN (pystrip t)
  have hq : endsWithQmark (pystrip s) = endsWithQmark (pystrip t) := by
    unfold endsWithQmark
    rw [decide_eq_decide]
    cases hs' : (pystrip s).getLast? with
    | none =>
      cases ht' : (pystrip t).getLast? with
      | none => simp
      | some b => rw [hs', ht'] at hlast; simp at hlast
    | some a =>
      cases ht' : (pystrip t).getLast? with
      | none => rw [hs', ht'] at hlast; simp at hlast
      | some b =>
        rw [hs', ht'] at hlast
        simp only [Option.map_some', Option.some.injEq] at hlast ⊢
        rw [← lowerN_eq_qmark a, ← lowerN_eq_qmark b, hlast]
  have hqb : qBonus s = qBonus t := by
    unfold qBonus
    rw [hq]
  simp only [classify_fast]
  rw [hql, hqb]

/-- C7 witness: two casings of the same text classify identically. -/
theorem claim_C7_case_insensitive_determinism_witness :
    classify_fast (lc "Fix The Bug") = classify_fast (lc "fix the bug") :=
  claim_C7_case_insensitive_determinism (lc "Fix The Bug") (lc "fix the bug") (by decide)

/-- The score as claim C3 words it: the sum of the weights of the table
entries found as substrings of the (lower-cased, stripped) unit, plus the
length bonus, plus the question-mark bonus. -/
def c3_spec_score (q : List Nat) : ℚ :=
  ((COMPLEXITY_KEYWORDS.filter
      (fun kv => containsSub kv.1 (pystrip (pyLower q)))).map (fun kv => kv.2)).sum
    + (if 20 < wordCount (pystrip (pyLower q)) then 0.2
       else if 10 < wordCount (pystrip (pyLower q)) then 0.1 else 0)
    + (if endsWithQmark (pystrip q) then 0.1 else 0)

/-- The matched keywords as claim C3 words it: the table entries found as
substrings of the unit, in table order. -/
def c3_spec_keywords (q : List Nat) : List (List Nat) :=
  (COMPLEXITY_KEYWORDS.filter
      (fun kv => containsSub kv.1 (pystrip (pyLower q)))).map (fun kv => kv.1)

theorem scoreKeywords_foldl (ql : List Nat) (l : List (List Nat × ℚ)) :
    ∀ (a : ℚ) (ks : List (List Nat)),
      l.foldl (fun acc kv =>
          if containsSub kv.1 ql then (acc.1 + kv.2, acc.2 ++ [kv.1]) else acc) (a, ks)
        = (a + ((l.filter (fun kv => containsSub kv.1 ql)).map (fun kv => kv.2)).sum,
           ks ++ (l.filter (fun kv => containsSub kv.1 ql)).map (fun kv => kv.1)) := by
  induction l with
  | nil => intro a ks; simp
  | cons kv rest ih =>
    intro a ks
    simp only [List.foldl_cons]
    by_cases hkv : containsSub kv.1 ql = true
    · rw [if_pos hkv, ih]
      simp [List.filter_cons, hkv, add_assoc]
    · rw [if_neg (by simp [hkv]), ih]
      simp [List.filter_cons, hkv]

/-- The keyword loop computes the filtered weight sum and the filtered
keyword list. -/
theorem scoreKeywords_eq (ql : List Nat) :
    scoreKeywords ql =
      (((COMPLEXITY_KEYWORDS.filter (fun kv => containsSub kv.1 ql)).map (fun kv => kv.2)).sum,
       (COMPLEXITY_KEYWORDS.filter (fun kv => containsSub kv.1 ql)).map (fun kv => kv.1)) := by
  unfold scoreKeywords
  rw [scoreKeywords_foldl]
  simp

/-- C3: for a unit of stripped length at least 3 matching no simple and no
complex pattern, `classify_fast` scores it by summing the weights of the
keyword-table entries found as substrings, adds the word-count bonus
(+0.2 over 20 words, else +0.1 over 10) and the question-mark bonus
(+0.1), and answers `COMPLEX` at `min 0.9 (0.5 + score)` when score ≥ 0.5,
`UNCERTAIN` at 0.5 targeting the primary backend when 0.25 ≤ score < 0.5,
and `SIMPLE` at 0.7 when score < 0.25. -/
theorem claim_C3_keyword_scoring (q : List Nat)
    (h3 : 3 ≤ (pystrip (pyLower q)).length)
    (hs : simpleMatch (pystrip (pyLower q)) = false)
    (hc : complexMatch (pystrip (pyLower q)) = false) :
    classify_fast q =
      if 0.5 ≤ c3_spec_score q then
        ⟨.COMPLEX, min 0.9 (0.5 + c3_spec_score q),
         .highScore (c3_spec_score q) (c3_spec_keywords q), "ollama"⟩
      else if 0.25 ≤ c3_spec_score q then
        ⟨.UNCERTAIN, 0.5, .mediumScore (c3_spec_score q), "moshi"⟩
      else
        ⟨.SIMPLE, 0.7, .lowScore (c3_spec_score q), "moshi"⟩ := by
  have h3' : ¬ (pystrip (pyLower q)).length < 3 := by omega
  have hsc : (scoreKeywords (pystrip (pyLower q))).1 + lenBonus (pystrip (pyLower q)) + qBonus q
      = c3_spec_score q := by
    rw [scoreKeywords_eq]
    unfold c3_spec_score lenBonus qBonus
    rfl
  have hkw : (scoreKeywords (pystrip (pyLower q))).2 = c3_spec_keywords q := by
    rw [scoreKeywords_eq]
    rfl
  simp only [classify_fast, h3', if_false, hs, hc, Bool.false_eq_true]
  rw [hsc, hkw]

/-- C3 witness: a plain query that matches no pattern and no keyword
lands in the low-score `SIMPLE` branch of the scoring stage. -/
theorem claim_C3_keyword_scoring_witness :
    3 ≤ (pystrip (pyLower (lc "tell me more about cats"))).length ∧
    simpleMatch (pystrip (pyLower (lc "tell me more about cats"))) = false ∧
    complexMatch (pystrip (pyLower (lc "tell me more about cats"))) = false ∧
    classify_fast (lc "tell me more about cats") =
      if 0.5 ≤ c3_spec_score (lc "tell me more about cats") then
        ⟨.COMPLEX, min 0.9 (0.5 + c3_spec_score (lc "tell me more about cats")),
         .highScore (c3_spec_score (lc "tell me more about cats"))
           (c3_spec_keywords (lc "tell me more about cats")), "ollama"⟩
      else if 0.25 ≤ c3_spec_score (lc "tell me more about cats") then
        ⟨.UNCERTAIN, 0.5, .mediumScore (c3_spec_score (lc "tell me more about cats")), "moshi"⟩
      else
        ⟨.SIMPLE, 0.7, .lowScore (c3_spec_score (lc "tell me more about cats")), "moshi"⟩ :=
  ⟨by decide, by decide, by decide,
   claim_C3_keyword_scoring (lc "tell me more about cats") (by decide) (by decide) (by decide)⟩

/-- The confidence of every fast decision is one of five constants: in the
score ≥ 0.5 branch `min 0.9 (0.5 + score)` collapses to 0.9. -/
theorem classify_fast_confidence_cases (q : List Nat) :
    (classify_fast q).confidence = 0.5 ∨ (classify_fast q).confidence = 0.7 ∨
    (classify_fast q).confidence = 0.8 ∨ (classify_fast q).confidence = 0.85 ∨
    (classify_fast q).confidence = 0.9 := by
  simp only [classify_fast]
  split_ifs with h1 h2 h3 h4 h5
  · simp
  · simp
  · simp
  · have h90 : min (0.9 : ℚ)
        (0.5 + ((scoreKeywords (pystrip (pyLower q))).1 + lenBonus (pystrip (pyLower q)) + qBonus q))
        = 0.9 := by
      rw [min_eq_left]
      linarith
    simp [h90]
  · simp
  · simp

/-- Concrete evaluation: a query whose only keyword hit is "how", with
more than 10 words and no question mark, scores 0.25 and lands in the
`UNCERTAIN` branch. -/
theorem classify_wood_eq :
    classify_fast (lc "how much wood would a wood chuck chuck if a chuck could chuck wood")
      = ⟨.UNCERTAIN, 0.5, .mediumScore 0.25, "moshi"⟩ := by
  have h := claim_C3_keyword_scoring
    (lc "how much wood would a wood chuck chuck if a chuck could chuck wood")
    (by decide) (by decide) (by decide)
  have hsc : c3_spec_score
      (lc "how much wood would a wood chuck chuck if a chuck could chuck wood") = 0.25 := by
    unfold c3_spec_score
    rw [show COMPLEXITY_KEYWORDS.filter (fun kv => containsSub kv.1 (pystrip (pyLower
        (lc "how much wood would a wood chuck chuck if a chuck could chuck wood"))))
      = [(lc "how", 0.15)] from rfl]
    rw [show wordCount (pystrip (pyLower
        (lc "how much wood would a wood chuck chuck if a chuck could chuck wood"))) = 14 from rfl]
    rw [show endsWithQmark (pystrip
        (lc "how much wood would a wood chuck chuck if a chuck could chuck wood")) = false from rfl]
    norm_num
  rw [h, hsc, if_neg (by norm_num), if_pos (by norm_num)]

/-- Concrete evaluation: keyword hits "in detail" and "thoroughly" score
0.6, landing in the weighted-scoring `COMPLEX` branch at confidence 0.9. -/
theorem classify_describe_eq :
    classify_fast (lc "describe it thoroughly and in detail")
      = ⟨.COMPLEX, 0.9, .highScore 0.6 [lc "in detail", lc "thoroughly"], "ollama"⟩ := by
  have h := claim_C3_keyword_scoring (lc "describe it thoroughly and in detail")
    (by decide) (by decide) (by decide)
  have hsc : c3_spec_score (lc "describe it thoroughly and in detail") = 0.6 := by
    unfold c3_spec_score
    rw [show COMPLEXITY_KEYWORDS.filter (fun kv => containsSub kv.1 (pystrip (pyLower
        (lc "describe it thoroughly and in detail"))))
      = [(lc "in detail", 0.3), (lc "thoroughly", 0.3)] from rfl]
    rw [show wordCount (pystrip (pyLower (lc "describe it thoroughly and in detail"))) = 6 from rfl]
    rw [show endsWithQmark (pystrip (lc "describe it thoroughly and in detail")) = false from rfl]
    norm_num
  have hkw : c3_spec_keywords (lc "describe it thoroughly and in detail")
      = [lc "in detail", lc "thoroughly"] := rfl
  rw [h, hsc, hkw, if_pos (by norm_num),
    show min (0.9 : ℚ) (0.5 + 0.6) = 0.9 from by norm_num]

/-- Concrete evaluation: a query hitting no keyword and no pattern scores 0
and is `SIMPLE` at confidence 0.7. -/
theorem classify_tellme_eq :
    classify_fast (lc "tell me more about cats") = ⟨.SIMPLE, 0.7, .lowScore 0, "moshi"⟩ := by
  have h := claim_C3_keyword_scoring (lc "tell me more about cats")
    (by decide) (by decide) (by decide)
  have hsc : c3_spec_score (lc "tell me more about cats") = 0 := by
    unfold c3_spec_score
    rw [show COMPLEXITY_KEYWORDS.filter (fun kv => containsSub kv.1 (pystrip (pyLower
        (lc "tell me more about cats")))) = [] from rfl]
    rw [show wordCount (pystrip (pyLower (lc "tell me more about cats"))) = 5 from rfl]
    rw [show endsWithQmark (pystrip (lc "tell me more about cats")) = false from rfl]
    norm_num
  rw [h, hsc, if_neg (by norm_num), if_neg (by norm_num)]

/-- C10: every decision produced by `classify_fast`, and every decision
produced by the LLM verification stage on top of it, has confidence among
0.5, 0.7, 0.75, 0.8, 0.85, 0.9 — hence within [0.5, 0.9]; whenever the
weighted-scoring branch answers `COMPLEX` (reason `highScore`), the
confidence `min 0.9 (0.5 + score)` is exactly 0.9; and each of the six
values is attained. -/
theorem claim_C10_confidence_range :
    (∀ q : List Nat, (classify_fast q).confidence ∈ ([0.5, 0.7, 0.8, 0.85, 0.9] : List ℚ)) ∧
    (∀ (q : List Nat) (avail : Bool) (resp : Option (List Nat)),
      (classify_with_llm avail (classify_fast q) resp).confidence
        ∈ ([0.5, 0.7, 0.75, 0.8, 0.85, 0.9] : List ℚ)) ∧
    (∀ q : List Nat,
      0.5 ≤ (classify_fast q).confidence ∧ (classify_fast q).confidence ≤ 0.9) ∧
    (∀ (q : List Nat) (sc : ℚ) (ks : List (List Nat)),
      (classify_fast q).reason = .highScore sc ks → (classify_fast q).confidence = 0.9) ∧
    ((classify_fast (lc "hi")).confidence = 0.9 ∧
     (classify_fast (lc "hello there")).confidence = 0.85 ∧
     (classify_fast (lc "fix the bug")).confidence = 0.8 ∧
     (classify_fast (lc "describe it thoroughly and in detail")).confidence = 0.9 ∧
     (classify_fast (lc "describe it thoroughly and in detail")).reason
        = .highScore 0.6 [lc "in detail", lc "thoroughly"] ∧
     (classify_fast (lc "tell me more about cats")).confidence = 0.7 ∧
     (classify_fast (lc "how much wood would a wood chuck chuck if a chuck could chuck wood")).confidence
        = 0.5 ∧
     (classify_with_llm true
        (classify_fast (lc "how much wood would a wood chuck chuck if a chuck could chuck wood"))
        (some (lc "COMPLEX"))).confidence = 0.75) := by
  have hfast : ∀ q : List Nat,
      (classify_fast q).confidence ∈ ([0.5, 0.7, 0.8, 0.85, 0.9] : List ℚ) := by
    intro q
    rcases classify_fast_confidence_cases q with h | h | h | h | h <;> rw [h] <;> simp
  refine ⟨hfast, ?_, ?_, ?_, ?_⟩
  · intro q avail resp
    unfold classify_with_llm
    split_ifs with h1 h2
    · rcases classify_fast_confidence_cases q with h | h | h | h | h <;> rw [h] <;> simp
    · rcases classify_fast_confidence_cases q with h | h | h | h | h <;> rw [h] <;> simp
    · cases resp with
      | none =>
        rcases classify_fast_confidence_cases q with h | h | h | h | h <;> rw [h] <;> simp
      | some r =>
        by_cases hr : containsSub (lc "COMPLEX") (pyUpper (pystrip r)) = true
        · simp [hr]
        · simp [hr]
  · intro q
    rcases classify_fast_confidence_cases q with h | h | h | h | h <;> rw [h] <;>
      exact ⟨by norm_num, by norm_num⟩
  · intro q sc ks h
    simp only [classify_fast] at h ⊢
    split_ifs at h ⊢ with h1 h2 h3 h4 h5
    all_goals try simp at h
    exact min_eq_left (by linarith)
  · refine ⟨rfl, rfl, rfl, ?_, ?_, ?_, ?_, ?_⟩
    · rw [classify_describe_eq]
    · rw [classify_describe_eq]
    · rw [classify_tellme_eq]
    · rw [classify_wood_eq]
    · rw [classify_wood_eq]
      rfl

/-- C10 witness: a concrete query landing in the weighted-scoring
`COMPLEX` branch has confidence exactly 0.9. -/
theorem claim_C10_confidence_range_witness :
    (classify_fast (lc "describe it thoroughly and in detail")).confidence = 0.9 :=
  claim_C10_confidence_range.2.2.2.1 (lc "describe it thoroughly and in detail")
    0.6 [lc "in detail", lc "thoroughly"] (by rw [classify_describe_eq])

theorem dispatches_append (l₁ l₂ : List Event) :
    dispatches (l₁ ++ l₂) = dispatches l₁ ++ dispatches l₂ := by
  unfold dispatches
  exact List.filterMap_append l₁ l₂ _

/-- While `routing_pending` is true, a step dispatches nothing and leaves
the flag true: the unit is dropped for secondary routing, nothing is
queued, and the classifier is not even consulted. -/
theorem textStep_pending_true (av : Bool) (st : FwdState) (t : List Nat)
    (h : st.routingPending = true) :
    dispatches (textStep av st t).2 = [] ∧ (textStep av st t).1.routingPending = true := by
  unfold textStep routeCheck
  by_cases ht : t = [] ∨ t = [0]
  · simp [ht, dispatches, h]
  · by_cases hse : sentenceEnd t = true
    · simp [ht, hse, h, dispatches]
    · simp [ht, hse, h, dispatches]

/-- A dispatch can only happen from a step whose starting state has
`routing_pending = false`, and it sets the flag. -/
theorem textStep_dispatch_mem (av : Bool) (st : FwdState) (t q : List Nat)
    (h : Event.dispatch q ∈ (textStep av st t).2) :
    st.routingPending = false ∧ (textStep av st t).1.routingPending = true := by
  unfold textStep routeCheck at h ⊢
  by_cases ht : t = [] ∨ t = [0]
  · simp [ht] at h
  · by_cases hse : sentenceEnd t = true
    · by_cases hav : (av && !st.routingPending) = true
      · by_cases hcx : (classify_fast (pystrip (st.sentenceBuffer ++ t))).complexity
            = QueryComplexity.COMPLEX
        · obtain ⟨hav1, hav2⟩ : av = true ∧ st.routingPending = false := by simpa using hav
          simp [ht, hse, hav1, hav2, hcx]
        · simp [ht, hse, hav, hcx] at h
      · simp [ht, hse, hav] at h
    · simp [ht, hse] at h

/-- Each step either dispatches nothing and preserves the flag, or
dispatches exactly one query and sets the flag. -/
theorem textStep_dispatch_structure (av : Bool) (st : FwdState) (t : List Nat) :
    (dispatches (textStep av st t).2 = [] ∧
      (textStep av st t).1.routingPending = st.routingPending) ∨
    (∃ q, dispatches (textStep av st t).2 = [q] ∧
      (textStep av st t).1.routingPending = true) := by
  unfold textStep routeCheck
  by_cases ht : t = [] ∨ t = [0]
  · left
    simp [ht, dispatches]
  · by_cases hse : sentenceEnd t = true
    · by_cases hav : (av && !st.routingPending) = true
      · by_cases hcx : (classify_fast (pystrip (st.sentenceBuffer ++ t))).complexity
            = QueryComplexity.COMPLEX
        · right
          exact ⟨pystrip (st.sentenceBuffer ++ t), by simp [ht, hse, hav, hcx, dispatches]⟩
        · left
          simp [ht, hse, hav, hcx, dispatches]
      · left
        simp [ht, hse, hav, dispatches]
    · left
      simp [ht, hse, dispatches]

/-- Once `routing_pending` is true it stays true for the rest of the run,
and no further dispatch ever happens. -/
theorem runFrom_pending_true (av : Bool) (ts : List (List Nat)) :
    ∀ st : FwdState, st.routingPending = true →
      dispatches (runFrom av st ts).2 = [] ∧ (runFrom av st ts).1.routingPending = true := by
  induction ts with
  | nil => intro st h; simp [runFrom, dispatches, h]
  | cons t ts ih =>
    intro st h
    have hstep := textStep_pending_true av st t h
    have hrest := ih (textStep av st t).1 hstep.2
    simp only [runFrom]
    constructor
    · rw [dispatches_append, hstep.1, hrest.1]
      rfl
    · exact hrest.2

/-- From an idle state, a whole run dispatches at most one query. -/
theorem runFrom_dispatch_le_one (av : Bool) (ts : List (List Nat)) :
    ∀ st : FwdState, st.routingPending = false →
      (dispatches (runFrom av st ts).2).length ≤ 1 := by
  induction ts with
  | nil => intro st _; simp [runFrom, dispatches]
  | cons t ts ih =>
    intro st h
    simp only [runFrom]
    rw [dispatches_append, List.length_append]
    rcases textStep_dispatch_structure av st t with ⟨hd, hpres⟩ | ⟨q, hd, hpend⟩
    · rw [hd]
      have := ih (textStep av st t).1 (hpres.trans h)
      simpa using this
    · rw [hd, (runFrom_pending_true av ts (textStep av st t).1 hpend).1]
      simp

/-- C2: at most one secondary query is in flight per session: while
`routing_pending` is true a step launches nothing and keeps the flag (the
unit is dropped — nothing is queued, nothing retried, in fact the state
the step leaves behind records nothing about the unit beyond cleared
buffers); a dispatch only happens from `routing_pending = false` and sets
it to true; and any whole session run dispatches at most one query. -/
theorem claim_C2_single_flight :
    (∀ (av : Bool) (st : FwdState) (t : List Nat), st.routingPending = true →
      dispatches (textStep av st t).2 = [] ∧ (textStep av st t).1.routingPending = true) ∧
    (∀ (av : Bool) (st : FwdState) (t q : List Nat), Event.dispatch q ∈ (textStep av st t).2 →
      st.routingPending = false ∧ (textStep av st t).1.routingPending = true) ∧
    (∀ (av : Bool) (ts : List (List Nat)), (dispatches (runEvents av ts)).length ≤ 1) :=
  ⟨textStep_pending_true,
   fun av st t q h => textStep_dispatch_mem av st t q h,
   fun av ts => runFrom_dispatch_le_one av ts initFwd rfl⟩

/-- C2 witness: with the flag already set, a complex sentence-final unit
dispatches nothing; and a session with two complex sentences dispatches at
most one query. -/
theorem claim_C2_single_flight_witness :
    dispatches (textStep true ⟨[], [], true⟩ (lc "write a python function to sort a list.")).2
      = [] ∧
    (dispatches (runEvents true
      [lc "write a python function to sort a list.",
       lc "please calculate two plus two."])).length ≤ 1 :=
  ⟨(claim_C2_single_flight.1 true ⟨[], [], true⟩
      (lc "write a python function to sort a list.") rfl).1,
   claim_C2_single_flight.2.2 true
      [lc "write a python function to sort a list.",
       lc "please calculate two plus two."]⟩

/-- C1 (code bug): after the first dispatched Ollama query, the loop's
`routing_pending` stays true forever — the handler's completion path only
resets `ConversationState.current_query_routed`, a field nothing reads,
and has no access to the loop-local `routing_pending`.  Concretely: two
complex sentences in one session produce exactly one dispatch, the second
complex unit is silently dropped, the final loop state still has the flag
set, and the handler's finalizer changes only `currentQueryRouted`. -/
theorem claim_C1_routing_flag_never_cleared :
    runEvents true
        [lc "write a python function to sort a list.",
         lc "please calculate two plus two."]
      = [Event.response (lc "write a python function to sort a list.") true .moshi,
         Event.classifyCall (lc "write a python function to sort a list."),
         Event.dispatch (lc "write a python function to sort a list."),
         Event.response (lc "write a python function to sort a list.") false .moshi,
         Event.response (lc "please calculate two plus two.") true .moshi,
         Event.response (lc "please calculate two plus two.") false .moshi] ∧
    (runFrom true initFwd
        [lc "write a python function to sort a list.",
         lc "please calculate two plus two."]).1.routingPending = true ∧
    (∀ cs : ConversationState, ollamaFinalize cs = { cs with currentQueryRouted := false }) :=
  ⟨by decide, by decide, fun cs => rfl⟩

/-- Scan of an event stream grouping each `partial=false` moshi completion
with the texts of the `partial=true` moshi events delivered since the
previous completion (in delivery order); the second component is the list
of partial texts not yet closed by a completion.  Events of other shapes
(ollama responses, state events, bookkeeping marks) are ignored. -/
def gsScan : List Event → List (List Nat) →
    List (List (List Nat) × List Nat) × List (List Nat)
  | [], acc => ([], acc)
  | .response t true .moshi :: rest, acc => gsScan rest (acc ++ [t])
  | .response t false .moshi :: rest, acc =>
    ((acc, t) :: (gsScan rest []).1, (gsScan rest []).2)
  | .response _ _ .ollama :: rest, acc => gsScan rest acc
  | .thinking :: rest, acc => gsScan rest acc
  | .errorEv :: rest, acc => gsScan rest acc
  | .dispatch _ :: rest, acc => gsScan rest acc
  | .classifyCall _ :: rest, acc => gsScan rest acc

/-- The sentences of an event stream: for each completion event, the
partial token texts delivered before it paired with the completion text. -/
def groupSentences (evs : List Event) : List (List (List Nat) × List Nat) :=
  (gsScan evs []).1

/-- Routing bookkeeping events are invisible to the sentence grouping. -/
theorem gsScan_routeCheck (av p : Bool) (s : List Nat) (rest : List Event)
    (acc : List (List Nat)) :
    gsScan ((routeCheck av p s).2 ++ rest) acc = gsScan rest acc := by
  unfold routeCheck
  split_ifs <;> simp [gsScan]

theorem partialTexts_append (l₁ l₂ : List Event) :
    partialTexts (l₁ ++ l₂) = partialTexts l₁ ++ partialTexts l₂ := by
  unfold partialTexts
  exact List.filterMap_append l₁ l₂ _

/-- Routing bookkeeping events carry no partial text. -/
theorem partialTexts_routeCheck (av p : Bool) (s : List Nat) :
    partialTexts (routeCheck av p s).2 = [] := by
  unfold routeCheck
  split_ifs <;> simp [partialTexts]

/-- Invariant of the forwarding loop: whenever the loop's `text_buffer`
is the concatenation of the partial texts delivered since the last
completion, each completion event groups with exactly those partials and
its text is their stripped concatenation. -/
theorem runFrom_gsScan (av : Bool) (ts : List (List Nat)) :
    ∀ (st : FwdState) (acc : List (List Nat)), st.textBuffer = acc.flatten →
      ∀ p ∈ (gsScan (runFrom av st ts).2 acc).1, p.2 = pystrip p.1.flatten := by
  induction ts with
  | nil =>
    intro st acc hb p hp
    simp [runFrom, gsScan] at hp
  | cons t ts ih =>
    intro st acc hb p hp
    simp only [runFrom] at hp
    by_cases ht : t = [] ∨ t = [0]
    · rw [show textStep av st t = (st, []) from by simp [textStep, ht]] at hp
      simp only [List.nil_append] at hp
      exact ih st acc hb p hp
    · by_cases hse : sentenceEnd t = true
      · rw [show textStep av st t
            = (⟨[], [], (routeCheck av st.routingPending (pystrip (st.sentenceBuffer ++ t))).1⟩,
               Event.response t true .moshi ::
                 (routeCheck av st.routingPending (pystrip (st.sentenceBuffer ++ t))).2
                   ++ [Event.response (pystrip (st.textBuffer ++ t)) false .moshi])
            from by simp [textStep, ht, hse]] at hp
        simp only [List.cons_append, gsScan] at hp
        simp only [List.append_eq, List.append_assoc] at hp
        rw [gsScan_routeCheck, List.singleton_append] at hp
        simp only [gsScan, List.mem_cons] at hp
        rcases hp with hp | hp
        · rw [hp]
          simp [List.flatten_append, hb]
        · exact ih _ [] rfl p hp
      · rw [show textStep av st t
            = (⟨st.textBuffer ++ t, st.sentenceBuffer ++ t, st.routingPending⟩,
               [Event.response t true .moshi]) from by simp [textStep, ht, hse]] at hp
        simp only [List.singleton_append, gsScan] at hp
        exact ih ⟨st.textBuffer ++ t, st.sentenceBuffer ++ t, st.routingPending⟩ (acc ++ [t])
          (by simp [List.flatten_append, hb]) p hp

/-- A payload is forwarded as a partial token iff it is non-empty and not
the NUL filler (`if text and text != '\x00'`). -/
def validTok (t : List Nat) : Bool := !(t == [] || t == [0])

/-- The `partial=true` moshi texts delivered by a run are exactly the
non-empty, non-NUL incoming payloads, in generation order. -/
theorem runFrom_partialTexts (av : Bool) (ts : List (List Nat)) :
    ∀ st : FwdState,
      partialTexts (runFrom av st ts).2 = ts.filter validTok := by
  induction ts with
  | nil => intro st; simp [runFrom, partialTexts]
  | cons t ts ih =>
    intro st
    simp only [runFrom]
    rw [partialTexts_append, List.filter_cons]
    by_cases ht : t = [] ∨ t = [0]
    · have hcond : validTok t = false := by
        rcases ht with h | h <;> simp [validTok, h]
      rw [show textStep av st t = (st, []) from by simp [textStep, ht]]
      rw [hcond]
      rw [show partialTexts ([] : List Event) = [] from rfl]
      simp [ih]
    · have hcond : validTok t = true := by
        push_neg at ht
        simp [validTok, ht.1, ht.2]
      rw [hcond]
      by_cases hse : sentenceEnd t = true
      · rw [show textStep av st t
            = (⟨[], [], (routeCheck av st.routingPending (pystrip (st.sentenceBuffer ++ t))).1⟩,
               Event.response t true .moshi ::
                 (routeCheck av st.routingPending (pystrip (st.sentenceBuffer ++ t))).2
                   ++ [Event.response (pystrip (st.textBuffer ++ t)) false .moshi])
            from by simp [textStep, ht, hse]]
        rw [show (Event.response t true Source.moshi ::
              (routeCheck av st.routingPending (pystrip (st.sentenceBuffer ++ t))).2
                ++ [Event.response (pystrip (st.textBuffer ++ t)) false Source.moshi])
            = [Event.response t true Source.moshi]
                ++ (routeCheck av st.routingPending (pystrip (st.sentenceBuffer ++ t))).2
                ++ [Event.response (pystrip (st.textBuffer ++ t)) false Source.moshi]
            from by simp]
        rw [partialTexts_append, partialTexts_append, partialTexts_routeCheck]
        rw [show partialTexts [Event.response t true Source.moshi] = [t] from by
          simp [partialTexts]]
        rw [show partialTexts
              [Event.response (pystrip (st.textBuffer ++ t)) false Source.moshi] = [] from by
          simp [partialTexts]]
        simp [ih]
      · rw [show textStep av st t
            = (⟨st.textBuffer ++ t, st.sentenceBuffer ++ t, st.routingPending⟩,
               [Event.response t true .moshi]) from by simp [textStep, ht, hse]]
        rw [show partialTexts [Event.response t true Source.moshi] = [t] from by
          simp [partialTexts]]
        simp [ih]

/-- C6 (amended): within a session, the partial moshi texts are delivered
in generation order (they are exactly the valid incoming payloads, in
order), every completion event is preceded by precisely the partial events
of its sentence, and the completion's text is the *whitespace-stripped*
concatenation of those partial texts (`text_buffer.strip()` — not the raw
concatenation). -/
theorem claim_C6_sentence_stream (av : Bool) (ts : List (List Nat)) :
    (∀ p ∈ groupSentences (runEvents av ts), p.2 = pystrip p.1.flatten) ∧
    partialTexts (runEvents av ts) = ts.filter validTok :=
  ⟨fun p hp => runFrom_gsScan av ts initFwd [] rfl p hp,
   runFrom_partialTexts av ts initFwd⟩

/-- C6 witness: the sentence made of the single token " hi." completes
with text "hi.", the stripped concatenation of its partial tokens. -/
theorem claim_C6_sentence_stream_witness :
    (([lc " hi."], lc "hi.") : List (List Nat) × List Nat).2
      = pystrip ([lc " hi."] : List (List Nat)).flatten :=
  (claim_C6_sentence_stream false [lc " hi."]).1 ([lc " hi."], lc "hi.") (by decide)

/-- C6 counterexample to the claim as stated: the completion text is the
*stripped* concatenation, not the concatenation itself — for the single
token " hi." the delivered completion text is "hi." ≠ " hi.". -/
theorem claim_C6_counterexample :
    groupSentences (runEvents false [lc " hi."]) = [([lc " hi."], lc "hi.")] ∧
    (lc "hi." : List Nat) ≠ ([lc " hi."] : List (List Nat)).flatten := by
  exact ⟨by decide, by decide⟩

/-- Every event of the streaming loop is a partial ollama response. -/
theorem processLines_events (lines : List OLine) :
    ∀ e ∈ (processLines lines).2, ∃ t, e = Event.response t true Source.ollama := by
  induction lines with
  | nil => intro e he; simp [processLines] at he
  | cons l rest ih =>
    intro e he
    cases l with
    | invalid =>
      rw [show processLines (OLine.invalid :: rest) = processLines rest from rfl] at he
      exact ih e he
    | line tok dn =>
      cases dn with
      | true =>
        by_cases htok : tok = []
        · simp [processLines, htok] at he
        · simp [processLines, htok] at he
          exact ⟨tok, he⟩
      | false =>
        by_cases htok : tok = []
        · simp [processLines, htok] at he
          exact ih e he
        · simp [processLines, htok] at he
          rcases he with he | he
          · exact ⟨tok, he⟩
          · exact ih e he

/-- C5 (amended): for every dispatched unit the handler first sends the
`thinking` state event; an exception always produces an error event; a
normally completed stream produces the final full response event whenever
the accumulated response is non-empty (and, as the counterexample shows,
nothing beyond `thinking` when it is empty); and every event the handler
emits is `thinking`, an error, or an ollama-tagged response — it never
emits, alters or terminates anything on the primary moshi stream. -/
theorem claim_C5_secondary_events (oc : OllamaOutcome) :
    (ollamaHandler oc).head? = some Event.thinking ∧
    (∀ lines, oc = OllamaOutcome.exn lines → Event.errorEv ∈ ollamaHandler oc) ∧
    (∀ lines, oc = OllamaOutcome.ok lines → (processLines lines).1 ≠ [] →
      Event.response (processLines lines).1 false Source.ollama ∈ ollamaHandler oc) ∧
    (∀ e ∈ ollamaHandler oc,
      e = Event.thinking ∨ e = Event.errorEv ∨ ∃ t b, e = Event.response t b Source.ollama) := by
  refine ⟨?_, ?_, ?_, ?_⟩
  · cases oc <;> rfl
  · intro lines h
    subst h
    simp [ollamaHandler]
  · intro lines h hne
    subst h
    simp [ollamaHandler, hne]
  · intro e he
    cases oc with
    | ok lines =>
      simp only [ollamaHandler, List.mem_cons] at he
      rcases he with he | he
      · exact Or.inl he
      · rw [List.mem_append] at he
        rcases he with he | he
        · obtain ⟨t, ht⟩ := processLines_events lines e he
          exact Or.inr (Or.inr ⟨t, true, ht⟩)
        · by_cases hne : (processLines lines).1 = []
          · simp [hne] at he
          · simp [hne] at he
            exact Or.inr (Or.inr ⟨(processLines lines).1, false, he⟩)
    | exn lines =>
      simp only [ollamaHandler, List.mem_cons] at he
      rcases he with he | he
      · exact Or.inl he
      · rw [List.mem_append] at he
        rcases he with he | he
        · obtain ⟨t, ht⟩ := processLines_events lines e he
          exact Or.inr (Or.inr ⟨t, true, ht⟩)
        · simp at he
          exact Or.inr (Or.inl he)

/-- C5 witness: an immediate exception yields an error event; a one-token
completed stream yields the full-response event. -/
theorem claim_C5_secondary_events_witness :
    Event.errorEv ∈ ollamaHandler (OllamaOutcome.exn []) ∧
    Event.response (processLines [OLine.line (lc "hi") true]).1 false Source.ollama
      ∈ ollamaHandler (OllamaOutcome.ok [OLine.line (lc "hi") true]) :=
  ⟨(claim_C5_secondary_events (OllamaOutcome.exn [])).2.1 [] rfl,
   (claim_C5_secondary_events (OllamaOutcome.ok [OLine.line (lc "hi") true])).2.2.1
     [OLine.line (lc "hi") true] rfl (by decide)⟩

/-- C5 counterexample to the claim as stated: a stream that completes at
once with an empty `response` field (for instance an error-status body)
produces neither a response event nor an error event — the client only
ever sees `thinking`. -/
theorem claim_C5_counterexample :
    ollamaHandler (OllamaOutcome.ok [OLine.line [] true]) = [Event.thinking] := by
  decide

/-- With the secondary backend unavailable, every event the forwarding
loop emits is a moshi-tagged response. -/
theorem runFrom_unavailable_moshi (ts : List (List Nat)) :
    ∀ st : FwdState, ∀ e ∈ (runFrom false st ts).2,
      ∃ t b, e = Event.response t b Source.moshi := by
  induction ts with
  | nil => intro st e he; simp [runFrom] at he
  | cons t ts ih =>
    intro st e he
    simp only [runFrom] at he
    rw [List.mem_append] at he
    rcases he with he | he
    · unfold textStep routeCheck at he
      by_cases ht : t = [] ∨ t = [0]
      · simp [ht] at he
      · by_cases hse : sentenceEnd t = true
        · simp [ht, hse] at he
          rcases he with he | he
          · exact ⟨t, true, he⟩
          · exact ⟨pystrip (st.textBuffer ++ t), false, he⟩
        · simp [ht, hse] at he
          exact ⟨t, true, he⟩
    · exact ih _ e he

theorem flatMap_id_of_singleton (f : Event → List Event) :
    ∀ l : List Event, (∀ e ∈ l, f e = [e]) → l.flatMap f = l := by
  intro l
  induction l with
  | nil => intro _; simp
  | cons a l ih =>
    intro h
    rw [List.flatMap_cons, h a (List.mem_cons_self a l),
      ih (fun e he => h e (List.mem_cons_of_mem _ he))]
    rfl

theorem moshi_events_no_marks (l : List Event) :
    (∀ e ∈ l, ∃ t b, e = Event.response t b Source.moshi) →
    dispatches l = [] ∧ classifyCalls l = [] := by
  induction l with
  | nil => intro _; simp [dispatches, classifyCalls]
  | cons e l ih =>
    intro h
    obtain ⟨t, b, rfl⟩ := h e (List.mem_cons_self e l)
    have hrest := ih (fun e' he' => h e' (List.mem_cons_of_mem _ he'))
    constructor
    · rw [show dispatches (Event.response t b Source.moshi :: l) = dispatches l from by
        simp [dispatches]]
      exact hrest.1
    · rw [show classifyCalls (Event.response t b Source.moshi :: l) = classifyCalls l from by
        simp [classifyCalls]]
      exact hrest.2

/-- C8 (amended): when the session-start liveness probe fails
(`ollama_available = false`), the dispatcher launches no secondary query,
the classifier is never invoked (contrary to the claim's "classified as
usual" — routing-gated classification is simply skipped), and the client
receives no `thinking` event and no `source=ollama` event: every event of
the whole session is a moshi-tagged response. -/
theorem claim_C8_probe_fail (ts : List (List Nat)) (oc : List Nat → OllamaOutcome) :
    dispatches (runEvents false ts) = [] ∧
    classifyCalls (runEvents false ts) = [] ∧
    sessionEvents false ts oc = runEvents false ts ∧
    (sessionEvents false ts oc).all
      (fun e => match e with
        | Event.response _ _ Source.moshi => true
        | _ => false) = true := by
  have hm := runFrom_unavailable_moshi ts initFwd
  have hmarks := moshi_events_no_marks (runEvents false ts) hm
  have hsess : sessionEvents false ts oc = runEvents false ts := by
    unfold sessionEvents
    apply flatMap_id_of_singleton
    intro e he
    obtain ⟨t, b, rfl⟩ := hm e he
    rfl
  refine ⟨hmarks.1, hmarks.2, hsess, ?_⟩
  rw [hsess, List.all_eq_true]
  intro e he
  obtain ⟨t, b, rfl⟩ := hm e he
  rfl

/-- C8 counterexample to the claim as stated: with the probe failed, a
complex sentence is *not* classified at all (the classifier runs inside
the availability gate), whereas with the probe succeeding the same unit is
classified — so units are not "classified as usual". -/
theorem claim_C8_counterexample :
    classifyCalls (runEvents false [lc "please calculate two plus two."]) = [] ∧
    classifyCalls (runEvents true [lc "please calculate two plus two."])
      = [lc "please calculate two plus two."] := by
  exact ⟨by decide, by decide⟩

end Jarvis
